import Mathlib

/-!
Verification of the callback-to-future bridge of `rust-indexed-db`.

Shallow embedding of:
- `src/idb_transaction/idb_transaction_listeners.rs`
  (`IdbTransactionListeners`, `base_callback`, `error_callback`, `do_poll`)
- `src/request/futures/idb_cursor_future.rs`
  (`IdbCursorFuture::do_poll`, `IdbCursorFuture::on_ready`)

The shared mutable state (`Rc<RefCell<Option<Waker>>>` and
`Rc<RefCell<Option<IdbTransactionResult>>>`) is modelled as an explicit
state record threaded through each operation.  A failed `try_borrow_mut`
(the reentrancy guard) is modelled by a `locked : Bool` flag passed to an
invocation, indicating that the invocation happens while the result cell
is exclusively borrowed.  A Rust panic (`expect`) is modelled as `none`
in an `Option` result.  Invoked wake handles are recorded in a `woken`
trace list so that relay firings are observable.
-/

namespace IndexedDb

/-- A wake handle (`std::task::Waker`), abstracted to an identity. -/
structure Waker where
  id : Nat
deriving DecidableEq, Repr

/-- A web-platform error payload (`web_sys::DomException`), abstracted. -/
structure DomException where
  code : Nat
deriving DecidableEq, Repr

/-- An opaque JavaScript value (`wasm_bindgen::JsValue`): either the null
sentinel or some non-null object, abstracted to an identity. -/
inductive JsValue where
  | null
  | obj (id : Nat)
deriving DecidableEq, Repr

/-- `JsValue::is_null` from `wasm_bindgen`. -/
def JsValue.is_null : JsValue → Bool
  | .null => true
  | .obj _ => false

/-- `IdbTransactionResult` (the `Outcome` of the spec): `Success`,
`Abort`, or `Error` with the payload captured from the event. -/
inductive IdbTransactionResult where
  | Success
  | Abort
  | Error (payload : DomException)
deriving DecidableEq, Repr

/-- `std::task::Poll`. -/
inductive Poll (α : Type) where
  | Ready (v : α)
  | Pending
deriving DecidableEq, Repr

/-- The shared state of one `IdbTransactionListeners` instance:
the waker cell (`WakerRef = Rc<RefCell<Option<Waker>>>`), the result cell
(`ResultRef = Rc<RefCell<Option<IdbTransactionResult>>>`), and a trace of
the wake handles that have been invoked (observability of relay firing). -/
structure ListenersState where
  waker : Option Waker
  result : Option IdbTransactionResult
  woken : List Waker
deriving DecidableEq, Repr

/-- Modelled from the spec: `create_lazy_ref_cell` from `internal_utils`
is not under src/; per the spec both shared cells start empty when the
listener set is constructed (`IdbTransactionListeners::new`). -/
def initialState : ListenersState :=
  { waker := none, result := none, woken := [] }

/-- Modelled from the spec: the `wake` helper from `internal_utils` is
not under src/.  Per spec §4.2 the relay `fire()` "takes and invokes the
stored handle if present, then clears it"; if no handle was armed it is a
no-op.  The invoked handle is appended to the `woken` trace. -/
def wake (st : ListenersState) : ListenersState :=
  match st.waker with
  | some w => { st with waker := none, woken := st.woken ++ [w] }
  | none => st

/-- `process` inside `base_callback`
(src/idb_transaction/idb_transaction_listeners.rs:103-116): try to borrow
the result cell mutably (fails iff `locked`), and if it is empty store
`kind` and return `true`; otherwise return `false`. -/
def base_process (kind : IdbTransactionResult) (locked : Bool)
    (st : ListenersState) : Bool × ListenersState :=
  if locked then
    (false, st)
  else
    match st.result with
    | none => (true, { st with result := some kind })
    | some _ => (false, st)

/-- The closure built by `base_callback`
(src/idb_transaction/idb_transaction_listeners.rs:118-123): run `process`
and, if it returned `true`, call `wake`. -/
def base_callback_run (kind : IdbTransactionResult) (locked : Bool)
    (st : ListenersState) : Bool × ListenersState :=
  let p := base_process kind locked st
  (p.1, if p.1 then wake p.2 else p.2)

deriving instance DecidableEq for Except

/-- The event target cast to `web_sys::IdbRequest`
(`evt.target().unchecked_into()`), exposing only the `error()` accessor:
`Result<Option<DomException>, JsValue>` in `web_sys`. -/
structure IdbRequest where
  error : Except JsValue (Option DomException)
deriving DecidableEq, Repr

/-- A `web_sys::Event`, exposing only `target()`. -/
structure Event where
  target : Option IdbRequest
deriving DecidableEq, Repr

/-- `process` inside `error_callback`
(src/idb_transaction/idb_transaction_listeners.rs:65-92).  Returns `none`
when the Rust code panics (the `expect` on `req.error()`); otherwise
`some (b, st')` where `b` says whether this invocation performed the
write (and hence whether the waker should be called). -/
def error_process (evt : Event) (locked : Bool)
    (st : ListenersState) : Option (Bool × ListenersState) :=
  match evt.target with
  | none => some (false, st)
  | some req =>
    match req.error with
    | .error _ => none
    | .ok none => some (false, st)
    | .ok (some err) =>
      if locked then
        some (false, st)
      else
        match st.result with
        | none => some (true, { st with result := some (.Error err) })
        | some _ => some (false, st)

/-- The closure built by `error_callback`
(src/idb_transaction/idb_transaction_listeners.rs:93-97): run `process`
and, if it returned `true`, call `wake`. -/
def error_callback_run (evt : Event) (locked : Bool)
    (st : ListenersState) : Option (Bool × ListenersState) :=
  match error_process evt locked st with
  | none => none
  | some (b, st') => some (b, if b then wake st' else st')

/-- `IdbTransactionListeners::do_poll`
(src/idb_transaction/idb_transaction_listeners.rs:53-60): if the result
cell is populated, return `Ready` with a clone of the stored value; else
replace the stored waker with the context's waker and return `Pending`. -/
def do_poll (ctx : Waker) (st : ListenersState) :
    Poll IdbTransactionResult × ListenersState :=
  match st.result with
  | some v => (.Ready v, st)
  | none => (.Pending, { st with waker := some ctx })

/-- One external invocation of one of the three callbacks registered by
`IdbTransactionListeners::new`
(src/idb_transaction/idb_transaction_listeners.rs:35-42): `oncomplete`
is `base_callback` with `IdbTransactionResult::Success`, `onabort` is
`base_callback` with `IdbTransactionResult::Abort`, and `onerror` is
`error_callback` applied to the delivered event.  The `locked` flag marks
a reentrant invocation happening while the result cell is borrowed. -/
inductive Invocation where
  | success (locked : Bool)
  | abort (locked : Bool)
  | error (evt : Event) (locked : Bool)
deriving DecidableEq, Repr

/-- Dispatch one invocation to the callback registered for its slot.
`none` models a panic. -/
def runInvocation : Invocation → ListenersState → Option (Bool × ListenersState)
  | .success locked, st => some (base_callback_run .Success locked st)
  | .abort locked, st => some (base_callback_run .Abort locked st)
  | .error evt locked, st => error_callback_run evt locked st

/-- The outcome an invocation would write on success: the constant
captured at construction for the success/abort slots, the payload
extracted from the event for the error slot (`none` when no payload is
extractable, or when extraction panics). -/
def outcomeOf : Invocation → Option IdbTransactionResult
  | .success _ => some .Success
  | .abort _ => some .Abort
  | .error evt _ =>
    match evt.target with
    | none => none
    | some req =>
      match req.error with
      | .ok (some err) => some (.Error err)
      | _ => none

/-- One entry of an execution log: the invocation, the value its
`process` returned, and the states before and after it ran. -/
structure StepLog where
  inv : Invocation
  ret : Bool
  pre : ListenersState
  post : ListenersState
deriving DecidableEq, Repr

/-- Run a sequence of callback invocations from a state, producing the
per-step log and the final state; `none` if any invocation panics. -/
def runLog : List Invocation → ListenersState →
    Option (List StepLog × ListenersState)
  | [], st => some ([], st)
  | i :: is, st =>
    match runInvocation i st with
    | none => none
    | some (b, st') =>
      match runLog is st' with
      | none => none
      | some (log, stF) =>
        some ({ inv := i, ret := b, pre := st, post := st' } :: log, stF)

/-- Shared-ownership handle to the underlying request
(`Rc<IdbRequestRef>`), modelled by the identity of the shared allocation:
two `Rc::clone`s of one handle are equal. -/
structure RequestHandle where
  id : Nat
deriving DecidableEq, Repr

/-- Modelled from the spec: `IdbCursor` (src/idb_cursor is not under
src/).  Per spec §4.5 the yielded domain cursor value is built from the
raw value, the query source, and a shared-ownership clone of the request
handle (`IdbCursor::new(raw.unchecked_into(), self.source,
Rc::clone(&self.req))`). -/
structure IdbCursor where
  raw : JsValue
  source : Nat
  req : RequestHandle
deriving DecidableEq, Repr

/-- Modelled from the spec: the state of the inner single-result future
(`IdbRequestFuture` is not under src/): per spec §4.4 it owns a result
cell holding an optional success-value-or-error pair, and a wake-relay
slot. -/
structure RequestFutureState where
  result : Option (Except DomException (Option JsValue))
  waker : Option Waker
deriving DecidableEq, Repr

/-- Modelled from the spec: `IdbRequestFuture::do_poll` (not under
src/): per spec §4.4, if the result cell is populated return `Ready`
with the stored pair; if empty, arm the relay with the context's waker
and return `Pending`. -/
def request_do_poll (ctx : Waker) (st : RequestFutureState) :
    Poll (Except DomException (Option JsValue)) × RequestFutureState :=
  match st.result with
  | some v => (.Ready v, st)
  | none => (.Pending, { st with waker := some ctx })

/-- Modelled from the spec: `safe_unwrap_option` from `internal_utils`
(not under src/): unwraps the resolved raw value, which per spec §4.5 is
always present on success; absence is a panic, kept as `none` in the
panic-modelling `Option`. -/
def safe_unwrap_option (o : Option JsValue) : Option JsValue := o

/-- `IdbCursorFuture` (src/request/futures/idb_cursor_future.rs:19-34):
the query source (the `&'a T`, abstracted to an identity) and the shared
request handle obtained from `inner.strong_request()` at construction. -/
structure IdbCursorFuture where
  source : Nat
  req : RequestHandle
deriving DecidableEq, Repr

/-- `IdbCursorFuture::on_ready`
(src/request/futures/idb_cursor_future.rs:44-56): propagate an error
unchanged (`res?`); unwrap the resolved raw value (`none` = panic); map
the null sentinel to `Ok(None)`; otherwise yield `Ok(Some(cursor))`
where the cursor shares the future's request handle. -/
def on_ready (f : IdbCursorFuture)
    (res : Except DomException (Option JsValue)) :
    Option (Except DomException (Option IdbCursor)) :=
  match res with
  | .error e => some (.error e)
  | .ok o =>
    match safe_unwrap_option o with
    | none => none
    | some raw =>
      if raw.is_null then
        some (.ok none)
      else
        some (.ok (some { raw := raw, source := f.source, req := f.req }))

/-- `IdbCursorFuture::do_poll`
(src/request/futures/idb_cursor_future.rs:37-42): delegate to the inner
future's poll and map a ready result through `on_ready`
(`self.inner.do_poll(ctx).map(|res| self.on_ready(res))`). -/
def cursor_do_poll (f : IdbCursorFuture) (ctx : Waker)
    (st : RequestFutureState) :
    Option (Poll (Except DomException (Option IdbCursor)) × RequestFutureState) :=
  match request_do_poll ctx st with
  | (.Pending, st') => some (.Pending, st')
  | (.Ready res, st') =>
    match on_ready f res with
    | none => none
    | some r => some (.Ready r, st')

/-! ### Helper lemmas -/

theorem wake_result (st : ListenersState) : (wake st).result = st.result := by
  cases h : st.waker <;> simp [wake, h]

theorem wake_woken (st : ListenersState) :
    (wake st).woken = st.woken ++ st.waker.toList := by
  cases h : st.waker <;> simp [wake, h]

theorem wake_waker (st : ListenersState) : (wake st).waker = none := by
  cases h : st.waker <;> simp [wake, h]

/-- Characterization of one callback invocation: either its `process`
returned `false` and the state is untouched, or it returned `true`, the
cell was empty, the invocation's outcome exists, and the new state is
the written cell followed by a relay fire. -/
theorem runInvocation_spec (inv : Invocation) (st : ListenersState)
    (b : Bool) (st' : ListenersState)
    (h : runInvocation inv st = some (b, st')) :
    (b = false ∧ st' = st) ∨
    (b = true ∧ st.result = none ∧ (outcomeOf inv).isSome = true ∧
      st' = wake { st with result := outcomeOf inv }) := by
  cases inv with
  | success locked =>
    cases locked with
    | true =>
      left
      simp [runInvocation, base_callback_run, base_process] at h
      exact ⟨h.1, h.2.symm⟩
    | false =>
      cases hr : st.result with
      | none =>
        right
        simp [runInvocation, base_callback_run, base_process, hr] at h
        exact ⟨h.1, rfl, by simp [outcomeOf], by rw [← h.2]; simp [outcomeOf]⟩
      | some v =>
        left
        simp [runInvocation, base_callback_run, base_process, hr] at h
        exact ⟨h.1, h.2.symm⟩
  | abort locked =>
    cases locked with
    | true =>
      left
      simp [runInvocation, base_callback_run, base_process] at h
      exact ⟨h.1, h.2.symm⟩
    | false =>
      cases hr : st.result with
      | none =>
        right
        simp [runInvocation, base_callback_run, base_process, hr] at h
        exact ⟨h.1, rfl, by simp [outcomeOf], by rw [← h.2]; simp [outcomeOf]⟩
      | some v =>
        left
        simp [runInvocation, base_callback_run, base_process, hr] at h
        exact ⟨h.1, h.2.symm⟩
  | error evt locked =>
    obtain ⟨target⟩ := evt
    cases target with
    | none =>
      left
      simp [runInvocation, error_callback_run, error_process] at h
      exact ⟨h.1, h.2.symm⟩
    | some req =>
      obtain ⟨err⟩ := req
      cases err with
      | error e =>
        simp [runInvocation, error_callback_run, error_process] at h
      | ok o =>
        cases o with
        | none =>
          left
          simp [runInvocation, error_callback_run, error_process] at h
          exact ⟨h.1, h.2.symm⟩
        | some d =>
          cases locked with
          | true =>
            left
            simp [runInvocation, error_callback_run, error_process] at h
            exact ⟨h.1, h.2.symm⟩
          | false =>
            cases hr : st.result with
            | none =>
              right
              simp [runInvocation, error_callback_run, error_process, hr] at h
              exact ⟨h.1, rfl, by simp [outcomeOf], by rw [← h.2]; simp [outcomeOf]⟩
            | some v =>
              left
              simp [runInvocation, error_callback_run, error_process, hr] at h
              exact ⟨h.1, h.2.symm⟩

/-- A `false`-returning invocation leaves the whole state unchanged. -/
theorem step_false (inv : Invocation) (st st' : ListenersState)
    (h : runInvocation inv st = some (false, st')) : st' = st := by
  rcases runInvocation_spec inv st false st' h with ⟨_, h2⟩ | ⟨h1, _⟩
  · exact h2
  · simp at h1

/-- An invocation on a populated cell returns `false` and changes
nothing. -/
theorem step_populated (inv : Invocation) (st : ListenersState)
    (v : IdbTransactionResult) (b : Bool) (st' : ListenersState)
    (hv : st.result = some v)
    (h : runInvocation inv st = some (b, st')) : b = false ∧ st' = st := by
  rcases runInvocation_spec inv st b st' h with ⟨h1, h2⟩ | ⟨_, h2, _⟩
  · exact ⟨h1, h2⟩
  · rw [hv] at h2
    cases h2

/-- A `true`-returning invocation wrote its outcome into a previously
empty cell, cleared the waker slot, and fired exactly the armed handle. -/
theorem step_true (inv : Invocation) (st st' : ListenersState)
    (h : runInvocation inv st = some (true, st')) :
    st.result = none ∧ st'.result = outcomeOf inv ∧
    (outcomeOf inv).isSome = true ∧ st'.waker = none ∧
    st'.woken = st.woken ++ st.waker.toList := by
  rcases runInvocation_spec inv st true st' h with ⟨h1, _⟩ | ⟨_, h2, h3, h4⟩
  · simp at h1
  · subst h4
    refine ⟨h2, ?_, h3, wake_waker _, ?_⟩
    · rw [wake_result]
    · rw [wake_woken]

/-- Running any sequence from a populated state changes nothing: every
step returns `false` and leaves the state alone. -/
theorem runLog_populated (invs : List Invocation) (st : ListenersState)
    (v : IdbTransactionResult) (log : List StepLog) (stF : ListenersState)
    (hv : st.result = some v)
    (h : runLog invs st = some (log, stF)) :
    stF = st ∧ ∀ e ∈ log, e.ret = false ∧ e.post = e.pre := by
  induction invs generalizing st log with
  | nil =>
    simp [runLog] at h
    obtain ⟨h1, h2⟩ := h
    subst h1
    subst h2
    exact ⟨rfl, by simp⟩
  | cons i is ih =>
    rcases hi : runInvocation i st with _ | ⟨b, st1⟩
    · simp [runLog, hi] at h
    rcases hl : runLog is st1 with _ | ⟨log', stF'⟩
    · simp [runLog, hi, hl] at h
    simp only [runLog, hi, hl, Option.some.injEq, Prod.mk.injEq] at h
    obtain ⟨hlog, hstF⟩ := h
    obtain ⟨hb, hst1⟩ := step_populated i st v b st1 hv hi
    subst hb
    subst hstF
    subst hst1
    obtain ⟨h1, h2⟩ := ih _ log' hv hl
    refine ⟨h1, ?_⟩
    rw [← hlog]
    intro e he
    rcases List.mem_cons.mp he with he | he
    · subst he
      exact ⟨rfl, rfl⟩
    · exact h2 e he

/-- Unfolding of one `runLog` step. -/
theorem runLog_cons (i : Invocation) (is : List Invocation)
    (st : ListenersState) (log : List StepLog) (stF : ListenersState)
    (h : runLog (i :: is) st = some (log, stF)) :
    ∃ b st1 log', runInvocation i st = some (b, st1) ∧
      runLog is st1 = some (log', stF) ∧
      log = { inv := i, ret := b, pre := st, post := st1 } :: log' := by
  rcases hi : runInvocation i st with _ | ⟨b, st1⟩
  · simp [runLog, hi] at h
  rcases hl : runLog is st1 with _ | ⟨log', stF'⟩
  · simp [runLog, hi, hl] at h
  simp only [runLog, hi, hl, Option.some.injEq, Prod.mk.injEq] at h
  exact ⟨b, st1, log', by simp [hi], by rw [hl, h.2], h.1.symm⟩


/-- Every entry of an execution log is a genuine invocation step. -/
theorem runLog_valid (invs : List Invocation) (st : ListenersState)
    (log : List StepLog) (stF : ListenersState)
    (h : runLog invs st = some (log, stF)) :
    ∀ e ∈ log, runInvocation e.inv e.pre = some (e.ret, e.post) := by
  induction invs generalizing st log with
  | nil =>
    simp [runLog] at h
    obtain ⟨h1, _⟩ := h
    subst h1
    simp
  | cons i is ih =>
    obtain ⟨b, st1, log', hi, hl, hlog⟩ := runLog_cons i is st log stF h
    subst hlog
    intro e he
    rcases List.mem_cons.mp he with he | he
    · subst he
      exact hi
    · exact ih st1 log' hl e he

/-- Once some entry's post-state is populated, the final state holds the
same value. -/
theorem runLog_post_mono (invs : List Invocation) (st : ListenersState)
    (log : List StepLog) (stF : ListenersState)
    (h : runLog invs st = some (log, stF)) :
    ∀ e ∈ log, ∀ v, e.post.result = some v → stF.result = some v := by
  induction invs generalizing st log with
  | nil =>
    simp [runLog] at h
    obtain ⟨h1, _⟩ := h
    subst h1
    simp
  | cons i is ih =>
    obtain ⟨b, st1, log', hi, hl, hlog⟩ := runLog_cons i is st log stF h
    subst hlog
    intro e he v hv
    rcases List.mem_cons.mp he with he | he
    · subst he
      rw [(runLog_populated is st1 v log' stF hv hl).1]
      exact hv
    · exact ih st1 log' hl e he v hv

/-! ### Claim theorems -/

/-- C1: Write-once: for every sequence of (possibly reentrant)
invocations of the success, abort, and error callbacks on one
`IdbTransactionListeners` instance (result cell initially empty), at
most one invocation's `process` returns `true`; every `false`-returning
invocation leaves the state (in particular the cell) untouched; and the
cell's final contents — read after the whole sequence — equal the
outcome of the unique successful writer. -/
theorem write_once (invs : List Invocation) (st0 : ListenersState)
    (log : List StepLog) (stF : ListenersState)
    (h0 : st0.result = none)
    (h : runLog invs st0 = some (log, stF)) :
    (log.filter (fun e => e.ret)).length ≤ 1 ∧
    (∀ e ∈ log, e.ret = false → e.post = e.pre) ∧
    (∀ e ∈ log, e.ret = true →
      e.post.result = outcomeOf e.inv ∧ stF.result = outcomeOf e.inv) := by
  induction invs generalizing st0 log with
  | nil =>
    simp [runLog] at h
    obtain ⟨h1, _⟩ := h
    subst h1
    simp
  | cons i is ih =>
    obtain ⟨b, st1, log', hi, hl, hlog⟩ := runLog_cons i is st0 log stF h
    subst hlog
    cases b with
    | false =>
      have hst1 : st1 = st0 := step_false i st0 st1 hi
      subst hst1
      obtain ⟨ih1, ih2, ih3⟩ := ih _ log' h0 hl
      refine ⟨by simpa using ih1, ?_, ?_⟩
      · intro e he hf
        rcases List.mem_cons.mp he with he | he
        · subst he
          rfl
        · exact ih2 e he hf
      · intro e he ht
        rcases List.mem_cons.mp he with he | he
        · subst he
          simp at ht
        · exact ih3 e he ht
    | true =>
      obtain ⟨hpre, hpost, hsome, hwaker, hwoken⟩ := step_true i st0 st1 hi
      obtain ⟨v, hv⟩ := Option.isSome_iff_exists.mp hsome
      have hv1 : st1.result = some v := by rw [hpost, hv]
      obtain ⟨hstF, hall⟩ := runLog_populated is st1 v log' stF hv1 hl
      have hnil : log'.filter (fun e => e.ret) = [] := by
        rw [List.filter_eq_nil_iff]
        intro a ha
        simp [(hall a ha).1]
      refine ⟨by simp [List.filter, hnil], ?_, ?_⟩
      · intro e he hf
        rcases List.mem_cons.mp he with he | he
        · subst he
          simp at hf
        · exact (hall e he).2
      · intro e he ht
        rcases List.mem_cons.mp he with he | he
        · subst he
          rw [hstF]
          exact ⟨hpost, hpost⟩
        · have := (hall e he).1
          rw [this] at ht
          cases ht

/-- C2: Poll contract and no lost wakeup: `do_poll` returns `Ready`
with the stored outcome exactly when the cell is populated, and
otherwise stores the context's waker and returns `Pending`; if any
callback wrote the result before the first poll, that first poll
observes `Ready` with the written value. -/
theorem do_poll_contract (ctx : Waker) (st : ListenersState) :
    (∀ v, st.result = some v → do_poll ctx st = (.Ready v, st)) ∧
    (st.result = none →
      do_poll ctx st = (.Pending, { st with waker := some ctx })) ∧
    (∀ invs st0 log, st0.result = none →
      runLog invs st0 = some (log, st) →
      (∃ e ∈ log, e.ret = true) →
      ∃ v, st.result = some v ∧ do_poll ctx st = (.Ready v, st)) := by
  refine ⟨?_, ?_, ?_⟩
  · intro v hv
    simp [do_poll, hv]
  · intro h0
    simp [do_poll, h0]
  · rintro invs st0 log h0 h ⟨e, he, het⟩
    have hstep := runLog_valid invs st0 log st h e he
    rw [het] at hstep
    obtain ⟨_, hpost, hsome, _, _⟩ := step_true e.inv e.pre e.post hstep
    obtain ⟨v, hv⟩ := Option.isSome_iff_exists.mp hsome
    have h1 : e.post.result = some v := by rw [hpost, hv]
    have h2 : st.result = some v := runLog_post_mono invs st0 log st h e he v h1
    exact ⟨v, h2, by simp [do_poll, h2]⟩

/-- C4: Write-then-fire ordering: in any run, an invocation whose write
attempt returned `false` changes nothing (in particular it never fires
the relay); the relay fires only within an invocation whose write
succeeded, and such an invocation leaves the cell populated (and it
stays populated at the end of the run), firing exactly the handle armed
before it ran. -/
theorem write_then_fire (invs : List Invocation) (st0 : ListenersState)
    (log : List StepLog) (stF : ListenersState)
    (h : runLog invs st0 = some (log, stF)) :
    ∀ e ∈ log,
      (e.ret = false → e.post = e.pre) ∧
      (e.post.woken ≠ e.pre.woken → e.ret = true) ∧
      (e.ret = true → e.post.result.isSome = true ∧
        e.post.woken = e.pre.woken ++ e.pre.waker.toList ∧
        stF.result.isSome = true) := by
  intro e he
  have hstep := runLog_valid invs st0 log stF h e he
  refine ⟨?_, ?_, ?_⟩
  · intro hf
    rw [hf] at hstep
    exact step_false _ _ _ hstep
  · intro hw
    cases hret : e.ret with
    | false =>
      rw [hret] at hstep
      rw [step_false _ _ _ hstep] at hw
      exact absurd rfl hw
    | true => rfl
  · intro ht
    rw [ht] at hstep
    obtain ⟨_, hpost, hsome, _, hwoken⟩ := step_true _ _ _ hstep
    obtain ⟨v, hv⟩ := Option.isSome_iff_exists.mp hsome
    have h1 : e.post.result = some v := by rw [hpost, hv]
    refine ⟨by rw [h1]; rfl, hwoken, ?_⟩
    rw [runLog_post_mono invs st0 log stF h e he v h1]
    rfl

/-- C3: Cursor exhaustion mapping: an inner error resolution passes
through `on_ready` unchanged; the null sentinel maps to `Ok(None)`; any
other raw value maps to `Ok(Some(cursor))` where the yielded cursor
carries the same shared request handle the future holds; and
`cursor_do_poll` applies exactly this mapping to the inner future's
ready value. -/
theorem cursor_exhaustion_mapping (f : IdbCursorFuture) (ctx : Waker)
    (st : RequestFutureState) :
    (∀ e, on_ready f (.error e) = some (.error e)) ∧
    (∀ raw, raw.is_null = true →
      on_ready f (.ok (some raw)) = some (.ok none)) ∧
    (∀ raw, raw.is_null = false →
      on_ready f (.ok (some raw)) =
        some (.ok (some { raw := raw, source := f.source, req := f.req }))) ∧
    (∀ res, st.result = some res →
      cursor_do_poll f ctx st =
        (on_ready f res).map fun r => (.Ready r, st)) := by
  refine ⟨?_, ?_, ?_, ?_⟩
  · intro e
    simp [on_ready]
  · intro raw hraw
    simp [on_ready, safe_unwrap_option, hraw]
  · intro raw hraw
    simp [on_ready, safe_unwrap_option, hraw]
  · intro res hres
    rcases hor : on_ready f res with _ | r <;>
      simp [cursor_do_poll, request_do_poll, hres, hor]

/-- C5: Unextractable error event is a no-op: with no event target, or a
target whose error accessor yields no error object, the error callback
returns `false` and leaves the state untouched (nothing written, relay
not fired, future still pending); on successful extraction with an
unlocked empty cell it stores exactly `Error` with the payload fetched
from the event's source object, then fires the relay. -/
theorem error_event_policy (evt : Event) (locked : Bool)
    (st : ListenersState) :
    (evt.target = none →
      error_callback_run evt locked st = some (false, st)) ∧
    (∀ req, evt.target = some req → req.error = .ok none →
      error_callback_run evt locked st = some (false, st)) ∧
    (∀ req err, evt.target = some req → req.error = .ok (some err) →
      locked = false → st.result = none →
      error_callback_run evt locked st =
        some (true, wake { st with result := some (.Error err) })) := by
  obtain ⟨target⟩ := evt
  refine ⟨?_, ?_, ?_⟩
  · intro h
    subst h
    simp [error_callback_run, error_process]
  · intro req hreq herr
    subst hreq
    simp [error_callback_run, error_process, herr]
  · intro req err hreq herr hlk hres
    subst hreq
    subst hlk
    simp [error_callback_run, error_process, herr, hres]

/-- C6: No panics in normal operation: the success and abort callbacks
and every poll are total; the error callback completes without reaching
its panicking branch whenever the event is a genuine error notification
(its target's error accessor, if there is a target, yields `Ok`). -/
theorem no_panic_normal_operation (st : ListenersState) :
    (∀ locked, (runInvocation (.success locked) st).isSome = true) ∧
    (∀ locked, (runInvocation (.abort locked) st).isSome = true) ∧
    (∀ evt locked, (∀ req, evt.target = some req → ∃ r, req.error = .ok r) →
      (runInvocation (.error evt locked) st).isSome = true) := by
  refine ⟨fun locked => rfl, fun locked => rfl, ?_⟩
  intro evt locked hok
  obtain ⟨target⟩ := evt
  cases target with
  | none => simp [runInvocation, error_callback_run, error_process]
  | some req =>
    obtain ⟨r, hr⟩ := hok req rfl
    cases r with
    | none =>
      simp [runInvocation, error_callback_run, error_process, hr]
    | some d =>
      cases locked <;> cases hres : st.result <;>
        simp [runInvocation, error_callback_run, error_process, hr, hres]

/-- C7: Idempotent late callbacks: invoking any of the three callbacks
while the result cell is already populated returns `false` and leaves
the state — cell, waker slot, and fired-handle trace — unchanged. -/
theorem late_callback_noop (inv : Invocation) (st : ListenersState)
    (v : IdbTransactionResult) (b : Bool) (st' : ListenersState)
    (hv : st.result = some v)
    (h : runInvocation inv st = some (b, st')) :
    b = false ∧ st' = st :=
  step_populated inv st v b st' hv h

/-- C8: Waker replacement: a poll that observes an empty result cell
stores exactly the polling context's waker, overwriting whatever was
there, and changes nothing else. -/
theorem waker_replacement (ctx : Waker) (st : ListenersState)
    (h : st.result = none) :
    do_poll ctx st = (.Pending, { st with waker := some ctx }) ∧
    (do_poll ctx st).2.waker = some ctx := by
  simp [do_poll, h]

/-- C9: Polling after resolution is benign and idempotent: with a
populated cell, `do_poll` returns `Ready` with the stored value and
leaves the state untouched, for this and every later poll. -/
theorem poll_after_resolution (ctx : Waker) (st : ListenersState)
    (v : IdbTransactionResult) (h : st.result = some v) :
    do_poll ctx st = (.Ready v, st) ∧
    ∀ ctx', do_poll ctx' st = (.Ready v, st) := by
  constructor
  · simp [do_poll, h]
  · intro ctx'
    simp [do_poll, h]

/-- C10: Success and abort outcomes are fixed at registration: whenever
the complete or abort callback performs the write, the stored value is
exactly the constant (`Success` resp. `Abort`) captured at construction;
in general `base_callback`'s `process` writes exactly its captured
`kind`. -/
theorem outcomes_fixed_at_registration (locked : Bool)
    (st : ListenersState) :
    (∀ b st', runInvocation (.success locked) st = some (b, st') →
      b = true → st'.result = some .Success) ∧
    (∀ b st', runInvocation (.abort locked) st = some (b, st') →
      b = true → st'.result = some .Abort) ∧
    (∀ kind, (base_process kind locked st).1 = true →
      (base_process kind locked st).2.result = some kind) := by
  refine ⟨?_, ?_, ?_⟩
  · intro b st' h ht
    subst ht
    have := (step_true _ _ _ h).2.1
    rw [this]
    rfl
  · intro b st' h ht
    subst ht
    have := (step_true _ _ _ h).2.1
    rw [this]
    rfl
  · intro kind hk
    cases locked with
    | true => simp [base_process] at hk
    | false =>
      cases hres : st.result with
      | none => simp [base_process, hres]
      | some v => simp [base_process, hres] at hk

/-! ### Witnesses -/

/-- Witness for C1: a concrete success-then-abort run writes once. -/
theorem write_once_witness :
    (([{ inv := .success false, ret := true, pre := initialState,
         post := { waker := none, result := some .Success, woken := [] } },
       { inv := .abort false, ret := false,
         pre := { waker := none, result := some .Success, woken := [] },
         post := { waker := none, result := some .Success, woken := [] } }] :
        List StepLog).filter (fun e => e.ret)).length ≤ 1 :=
  (write_once [.success false, .abort false] initialState
    [{ inv := .success false, ret := true, pre := initialState,
       post := { waker := none, result := some .Success, woken := [] } },
     { inv := .abort false, ret := false,
       pre := { waker := none, result := some .Success, woken := [] },
       post := { waker := none, result := some .Success, woken := [] } }]
    { waker := none, result := some .Success, woken := [] }
    rfl rfl).1

/-- Witness for C2: polling a populated cell is `Ready`. -/
theorem do_poll_contract_witness :
    do_poll ⟨0⟩ { waker := none, result := some .Abort, woken := [] } =
      (.Ready .Abort,
        { waker := none, result := some .Abort, woken := [] }) :=
  (do_poll_contract ⟨0⟩
    { waker := none, result := some .Abort, woken := [] }).1 .Abort rfl

/-- Witness for C3: a non-null raw value yields a cursor sharing the
future's request handle. -/
theorem cursor_exhaustion_mapping_witness :
    on_ready { source := 7, req := ⟨3⟩ } (.ok (some (.obj 4))) =
      some (.ok (some { raw := .obj 4, source := 7, req := ⟨3⟩ })) :=
  (cursor_exhaustion_mapping { source := 7, req := ⟨3⟩ } ⟨0⟩
    { result := none, waker := none }).2.2.1 (.obj 4) rfl

/-- Witness for C4: a successful write with an armed waker leaves the
cell populated. -/
theorem write_then_fire_witness :
    ({ waker := none, result := some .Success, woken := [⟨1⟩] } :
      ListenersState).result.isSome = true :=
  ((write_then_fire [.success false]
    { waker := some ⟨1⟩, result := none, woken := [] }
    [{ inv := .success false, ret := true,
       pre := { waker := some ⟨1⟩, result := none, woken := [] },
       post := { waker := none, result := some .Success, woken := [⟨1⟩] } }]
    { waker := none, result := some .Success, woken := [⟨1⟩] }
    rfl _ (List.mem_singleton.mpr rfl)).2.2 rfl).1

/-- Witness for C5: a concrete extractable error event writes
`Error` with the fetched payload and fires the relay. -/
theorem error_event_policy_witness :
    error_callback_run { target := some { error := .ok (some ⟨9⟩) } } false
        initialState =
      some (true, wake { initialState with result := some (.Error ⟨9⟩) }) :=
  (error_event_policy { target := some { error := .ok (some ⟨9⟩) } } false
    initialState).2.2 { error := .ok (some ⟨9⟩) } ⟨9⟩ rfl rfl rfl rfl

/-- Witness for C6: a genuine but payload-free error notification does
not panic. -/
theorem no_panic_normal_operation_witness :
    (runInvocation (.error { target := some { error := .ok none } } false)
        initialState).isSome = true :=
  (no_panic_normal_operation initialState).2.2
    { target := some { error := .ok none } } false
    (by
      intro req hreq
      cases hreq
      exact ⟨none, rfl⟩)

/-- Witness for C7: a late success callback on a resolved cell is a
no-op. -/
theorem late_callback_noop_witness :
    false = false ∧
      ({ waker := none, result := some .Abort, woken := [] } :
          ListenersState) =
        { waker := none, result := some .Abort, woken := [] } :=
  late_callback_noop (.success false)
    { waker := none, result := some .Abort, woken := [] } .Abort false
    { waker := none, result := some .Abort, woken := [] } rfl rfl

/-- Witness for C8: a pending poll overwrites a previously armed
waker. -/
theorem waker_replacement_witness :
    do_poll ⟨2⟩ { waker := some ⟨1⟩, result := none, woken := [] } =
      (.Pending, { waker := some ⟨2⟩, result := none, woken := [] }) :=
  (waker_replacement ⟨2⟩
    { waker := some ⟨1⟩, result := none, woken := [] } rfl).1

/-- Witness for C9: a poll after resolution returns the stored value
unchanged. -/
theorem poll_after_resolution_witness :
    do_poll ⟨0⟩ { waker := none, result := some (.Error ⟨5⟩), woken := [] } =
      (.Ready (.Error ⟨5⟩),
        { waker := none, result := some (.Error ⟨5⟩), woken := [] }) :=
  (poll_after_resolution ⟨0⟩
    { waker := none, result := some (.Error ⟨5⟩), woken := [] }
    (.Error ⟨5⟩) rfl).1

/-- Witness for C10: a firing success callback stores exactly
`Success`. -/
theorem outcomes_fixed_at_registration_witness :
    ({ waker := none, result := some .Success, woken := [] } :
      ListenersState).result = some .Success :=
  (outcomes_fixed_at_registration false initialState).1 true
    { waker := none, result := some .Success, woken := [] } rfl rfl

end IndexedDb
